import Mathlib

set_option maxHeartbeats 1000000
set_option maxRecDepth 8192

/-!
Verification of the DistroBaker component-synchronization engine
(`src/lib/distrobaker.py`) against its natural-language specification.

The Python module is shallowly embedded: text is modelled as `List Char`
(`Str`), external systems (git, lookaside caches, koji, MBS) are modelled by
an oracle structure `World` whose fields decide the outcome of each remote
operation, and the remote side effects a run performs are collected in a
`List Effect` trace.  Uncaught Python exceptions and `return None` error
paths are both modelled as a `none` result; neither mutates any state in the
source, so the distinction is irrelevant to the properties proved here.
-/

namespace DistroBaker

/-- Python strings are modelled as lists of characters. -/
abbrev Str := List Char

/-- Model of Python `s.split(sep, 1)` in the case the separator occurs:
the part before the first `sep` and everything after it.  Returns `none`
when `sep` does not occur. -/
def splitFirst (sep : Char) : Str → Option (Str × Str)
  | [] => none
  | c :: rest =>
    if c = sep then some ([], rest)
    else
      match splitFirst sep rest with
      | none => none
      | some (a, b) => some (c :: a, b)

def pySplitAux (sep : Char) : Str → Str → List Str
  | [], acc => [acc.reverse]
  | c :: rest, acc =>
    if c = sep then acc.reverse :: pySplitAux sep rest []
    else pySplitAux sep rest (c :: acc)

/-- Model of Python `s.split(sep)` (full split; always returns at least one
part, e.g. `"".split("/") == [""]`). -/
def pySplit (sep : Char) (s : Str) : List Str := pySplitAux sep s []

/-- Truthiness of an optional string, as Python `if x:` on a `str`-or-`None`
value: `None` and the empty string are falsy. -/
def truthy : Option Str → Bool
  | none => false
  | some s => !s.isEmpty

/-- Result of `split_scmurl` (src/lib/distrobaker.py:99): the dictionary with
`link`, `ref`, `ns` and `comp` keys. -/
structure SCMRef where
  link : Str
  ref : Option Str
  ns : Option Str
  comp : Option Str
deriving DecidableEq

/-- `split_scmurl` (src/lib/distrobaker.py:99): splits a `link#ref` style URL
into the link and ref parts (`ref` is `None` when no `#` occurs) and extracts
the last two path segments of the link as namespace and component. -/
def split_scmurl (scmurl : Str) : SCMRef :=
  let scm : Str × Option Str :=
    match splitFirst '#' scmurl with
    | some (l, r) => (l, some r)
    | none => (scmurl, none)
  let nscomp := pySplit '/' scm.1
  { link := scm.1
    ref := scm.2
    ns :=
      match nscomp.reverse with
      | _ :: n :: _ => some n
      | _ => none
    comp :=
      match nscomp.reverse with
      | c :: _ => some c
      | [] => none }

/-- A `name:stream` module coordinate. -/
structure ModuleCoord where
  name : Str
  stream : Str
deriving DecidableEq

/-- `split_module` (src/lib/distrobaker.py:121): splits `name:stream`,
defaulting the stream to `master` when the suffix is missing or empty. -/
def split_module (comp : Str) : ModuleCoord :=
  let ms := pySplit ':' comp
  { name := ms.headI
    stream :=
      match ms with
      | _ :: s :: _ => if s.isEmpty then "master".data else s
      | _ => "master".data }

/-- The whitespace characters removed by Python `str.rstrip()`. -/
def isPySpace (c : Char) : Bool :=
  c = ' ' || c = '\t' || c = '\n' || c = '\r' || c = '\x0b' || c = '\x0c'

/-- Python `str.rstrip()`: drop all trailing whitespace. -/
def rstrip (s : Str) : Str := (s.reverse.dropWhile isPySpace).reverse

/-- The character class `[a-f0-9]` of the `sre` regex. -/
def isHexLower (c : Char) : Bool :=
  ('a' ≤ c && c ≤ 'f') || ('0' ≤ c && c ≤ '9')

/-- The named groups of a successful `sre` match. -/
structure SreMatch where
  file : Str
  hash : Str
deriving DecidableEq

/-- First alternative of the `sre` regex (src/lib/distrobaker.py:33):
`^[a-f0-9]{32}  .+$` — a 32-character lowercase-hex hash, two spaces, and a
nonempty file name. -/
def matchMd5 (s : Str) : Option SreMatch :=
  if (s.take 32).length = 32 ∧ (s.take 32).all isHexLower then
    match s.drop 32 with
    | ' ' :: ' ' :: f => some ⟨f, s.take 32⟩
    | _ => none
  else none

/-- Second alternative of the `sre` regex: `^SHA512 \((.+)\) = [a-f0-9]{128}$`.
Because the hash is exactly the last 128 characters and is preceded by the
literal `") = "`, a successful match decomposes the line uniquely as
`"SHA512 (" ++ file ++ ") = " ++ hash` with `file` nonempty. -/
def matchSha512 (s : Str) : Option SreMatch :=
  if 141 ≤ s.length then
    if s.take 8 = "SHA512 (".data ∧ (s.drop (s.length - 132)).take 4 = ") = ".data ∧
        (s.drop (s.length - 128)).all isHexLower then
      some ⟨(s.take (s.length - 132)).drop 8, s.drop (s.length - 128)⟩
    else none
  else none

/-- The `sre` regex (src/lib/distrobaker.py:33).  The two alternatives of the
atomic group are tried left to right; their required prefixes (a hex digit
versus the letter `S`) are disjoint, so atomicity never changes the result. -/
def sreMatch (s : Str) : Option SreMatch :=
  match matchMd5 s with
  | some m => some m
  | none => matchSha512 s

/-- A `(filename, hash, hashtype)` tuple as produced by `parse_sources`. -/
abbrev SourceEntry := Str × Str × Str

/-- Hash-type deduction of src/lib/distrobaker.py:166:
`"sha512" if len(hash) == 128 else "md5"`. -/
def hashtypeOf (h : Str) : Str :=
  if h.length = 128 then "sha512".data else "md5".data

/-- The loop body of `parse_sources` (src/lib/distrobaker.py:150): each line is
rstripped and matched against `sre`; the first non-matching line aborts with
an error (`none`). -/
def parse_sources_lines : List Str → Option (List SourceEntry)
  | [] => some []
  | l :: ls =>
    match sreMatch (rstrip l) with
    | none => none
    | some m =>
      match parse_sources_lines ls with
      | none => none
      | some es => some ((m.file, m.hash, hashtypeOf m.hash) :: es)

/-- `parse_sources` (src/lib/distrobaker.py:136).  The sources file is given as
`none` when it does not exist (the function then returns the empty set) or as
the list of its lines (each line's trailing newline is removed by the
`rstrip` in the loop, so lines are passed without it).  The Python function
accumulates a `set`; the list returned here represents that set, and the
theorems about it speak of membership only.  `comp` and `ns` are used only in
log messages. -/
def parse_sources (_comp _ns : Str) (file : Option (List Str)) :
    Option (List SourceEntry) :=
  match file with
  | none => some []
  | some ls => parse_sources_lines ls

/-! ### The configuration model

`distrobaker.yaml` is modelled by a small YAML value type.  Mappings are
association lists with unique keys (as produced by a YAML parser).  Python
`in`/`[]` on a non-mapping raises; `yGet` returns `none` there, which the
load model treats the same way as a missing key — in both cases `load_config`
fails to return a configuration. -/

inductive YVal where
  | str : Str → YVal
  | bool : Bool → YVal
  | list : List YVal → YVal
  | map : List (Str × YVal) → YVal
  | null : YVal

def lookupA {α : Type} (kvs : List (Str × α)) (k : Str) : Option α :=
  match kvs with
  | [] => none
  | (k', v) :: rest => if k' = k then some v else lookupA rest k

def yGet : YVal → Str → Option YVal
  | .map kvs, k => lookupA kvs k
  | _, _ => none

/-- Python `str()` of a YAML scalar.  The configuration only ever applies it
to strings and the occasional boolean; the rendering of aggregates is
abridged. -/
def yStr : YVal → Str
  | .str s => s
  | .bool b => if b then "True".data else "False".data
  | .null => "None".data
  | .map _ => "{}".data
  | .list _ => "[]".data

/-- Python `bool()` truthiness. -/
def yBool : YVal → Bool
  | .str s => !s.isEmpty
  | .bool b => b
  | .null => false
  | .map kvs => !kvs.isEmpty
  | .list xs => !xs.isEmpty

/-- Model of Python `%`-formatting with a mapping, as used for the
configuration templates: `%(key)s` substitutes the mapped value and `%%` is a
literal percent sign; a missing key, a conversion other than `s`, or a
dangling `%` raises (modelled as `none`).  The recursion is bounded by a fuel
argument initialized to the template's length, which every step strictly
decreases below (each step consumes at least one character). -/
def pySubstGo (m : List (Str × Str)) : Nat → Str → Option Str
  | _, [] => some []
  | 0, _ :: _ => none
  | fuel + 1, '%' :: '(' :: rest =>
    (match splitFirst ')' rest with
     | none => none
     | some (key, after) =>
       match after with
       | 's' :: tl =>
         (match lookupA m key with
          | none => none
          | some v => (pySubstGo m fuel tl).map (fun t => v ++ t))
       | _ => none)
  | fuel + 1, '%' :: '%' :: tl => (pySubstGo m fuel tl).map (fun t => '%' :: t)
  | _ + 1, '%' :: _ => none
  | fuel + 1, c :: tl => (pySubstGo m fuel tl).map (fun t => c :: t)

def pySubst (m : List (Str × Str)) (s : Str) : Option Str :=
  pySubstGo m s.length s

structure CacheCfg where
  url : Str
  cgi : Str
  path : Str
deriving DecidableEq

structure EndpointCfg where
  scm : Str
  cache : CacheCfg
  profile : Str
  mbs : Option (List (Str × YVal))

structure TriggerCfg where
  rpms : Option Str
  modules : Option Str
deriving DecidableEq

structure BuildCfg where
  pfx : Str        -- the `build.prefix` template; renamed, `prefix` is reserved
  target : Str
  platform : Str
  scratch : Bool
deriving DecidableEq

structure GitCfg where
  author : Str
  email : Str
  message : Str
deriving DecidableEq

structure ControlCfg where
  build : Bool
  merge : Bool
  strict : Bool
  exclude_rpms : List Str
  exclude_modules : List Str
deriving DecidableEq

/-- A `{source, destination}` template pair.  The fields are optional because
`load_config` leaves them unset when the key is missing (see
`validateDefaults`). -/
structure PairCfg where
  source : Option Str
  destination : Option Str
deriving DecidableEq

/-- `defaults.modules.rpms`: the source stores the raw YAML value when the key
is present in the document (src/lib/distrobaker.py:452). -/
structure ModRpmsDefaults where
  source : YVal
  destination : YVal

structure DefaultsCfg where
  cache : PairCfg
  rpms : PairCfg
  modules : PairCfg
  modules_rpms : ModRpmsDefaults

/-- The validated `n` dictionary of `load_config` (the `c["main"]` value). -/
structure MainConfig where
  source : EndpointCfg
  destination : EndpointCfg
  trigger : TriggerCfg
  build : BuildCfg
  git : GitCfg
  control : ControlCfg
  defaults : DefaultsCfg

/-- A module sub-component override entry; overrides are stored raw
(src/lib/distrobaker.py:535). -/
structure SubEntry where
  source : YVal
  destination : YVal

structure CompEntry where
  source : Str
  destination : Str
  cache_source : Str
  cache_destination : Str
  rpms : List (Str × SubEntry)

/-- The `nc` dictionary of `load_config` (the `c["comps"]` value). -/
structure CompsCfg where
  rpms : List (Str × CompEntry)
  modules : List (Str × CompEntry)

/-- The MBS keys required for the chosen auth method
(src/lib/distrobaker.py:279-299); an unsupported method is fatal.  The
imports of the auth libraries are modelled as succeeding. -/
def mbsRequiredConfigs (am : Str) : Option (List Str) :=
  if am = "oidc".data then
    some ["auth_method".data, "api_url".data, "oidc_id_provider".data,
          "oidc_client_id".data, "oidc_client_secret".data, "oidc_scopes".data]
  else if am = "kerberos".data then
    some ["auth_method".data, "api_url".data]
  else none

def collectKeys (kvs : List (Str × YVal)) : List Str → Option (List (Str × YVal))
  | [] => some []
  | k :: ks =>
    match lookupA kvs k with
    | none => none
    | some v =>
      match collectKeys kvs ks with
      | none => none
      | some rest => some ((k, v) :: rest)

/-- `destination.mbs` validation (src/lib/distrobaker.py:262-333). -/
def validateMbs (mv : YVal) : Option (List (Str × YVal)) :=
  match mv with
  | .map kvs =>
    (match lookupA kvs "auth_method".data with
     | none => none
     | some amv =>
       match mbsRequiredConfigs (yStr amv) with
       | none => none
       | some req => collectKeys kvs req)
  | _ => none

/-- `source`/`destination` endpoint validation
(src/lib/distrobaker.py:234-346): `scm`, `cache.{url,cgi,path}` and `profile`
are required; `mbs` is required for the destination and warned-and-dropped
for the source. -/
def validateEndpoint (cnf : YVal) (k : Str) : Option EndpointCfg :=
  match yGet cnf k with
  | none => none
  | some sec => do
    let scmv ← yGet sec "scm".data
    let cachev ← yGet sec "cache".data
    let url ← yGet cachev "url".data
    let cgi ← yGet cachev "cgi".data
    let path ← yGet cachev "path".data
    let profv ← yGet sec "profile".data
    let mbs ←
      match yGet sec "mbs".data with
      | some mv =>
        if k = "destination".data then
          match validateMbs mv with
          | none => none
          | some kvs => some (some kvs)
        else some none
      | none =>
        if k = "destination".data then none
        else some none
    some { scm := yStr scmv,
           cache := { url := yStr url, cgi := yStr cgi, path := yStr path },
           profile := yStr profv, mbs := mbs }

/-- Trigger validation (src/lib/distrobaker.py:347-356).  A missing `trigger`
block is fatal, but when `trigger.rpms` or `trigger.modules` is absent the
source logs `Configuration error: trigger.<k> missing.` and — unlike every
other validation failure — does not return `None`: the field is left unset
and loading continues. -/
def validateTrigger (cnf : YVal) : Option TriggerCfg :=
  match yGet cnf "trigger".data with
  | none => none
  | some t =>
    some { rpms := (yGet t "rpms".data).map yStr,
           modules := (yGet t "modules".data).map yStr }

/-- `build` validation (src/lib/distrobaker.py:357-381): `prefix`, `target`
and `platform` required, `scratch` defaults to false, `platform` must be in
`name:stream` form. -/
def validateBuild (cnf : YVal) : Option BuildCfg :=
  match yGet cnf "build".data with
  | none => none
  | some b => do
    let pv ← yGet b "prefix".data
    let tv ← yGet b "target".data
    let plv ← yGet b "platform".data
    let scratch := match yGet b "scratch".data with
      | some sv => yBool sv
      | none => false
    if ':' ∈ yStr plv then
      some { pfx := yStr pv, target := yStr tv, platform := yStr plv,
             scratch := scratch }
    else none

/-- `git` validation (src/lib/distrobaker.py:382-392). -/
def validateGit (cnf : YVal) : Option GitCfg :=
  match yGet cnf "git".data with
  | none => none
  | some g => do
    let a ← yGet g "author".data
    let e ← yGet g "email".data
    let m ← yGet g "message".data
    some { author := yStr a, email := yStr e, message := yStr m }

/-- Elements of a `control.exclude` list.  Non-string entries are not
modelled; they could never equal a component name. -/
def excludeListOf (ex : YVal) (cns : Str) : List Str :=
  match yGet ex cns with
  | some (.list xs) =>
    xs.filterMap fun v => match v with | .str s => some s | _ => none
  | _ => []

/-- `control` validation (src/lib/distrobaker.py:393-422): `build`, `merge`
and `strict` required booleans; `exclude` defaults to empty sets. -/
def validateControl (cnf : YVal) : Option ControlCfg :=
  match yGet cnf "control".data with
  | none => none
  | some ctl => do
    let b ← yGet ctl "build".data
    let m ← yGet ctl "merge".data
    let s ← yGet ctl "strict".data
    let ex := match yGet ctl "exclude".data with
      | some ex => (excludeListOf ex "rpms".data, excludeListOf ex "modules".data)
      | none => ([], [])
    some { build := yBool b, merge := yBool m, strict := yBool s,
           exclude_rpms := ex.1, exclude_modules := ex.2 }

/-- `defaults` validation (src/lib/distrobaker.py:423-466).  A missing
`defaults.<dk>` block is fatal, but a missing `source`/`destination` inside a
present block only logs `Configuration error: defaults.<dk>.<dkk> missing.`
without returning `None` (another missing `return`), leaving the field unset.
The `defaults.modules.rpms` templates store the raw document value when
present and otherwise fall back to `str(n["defaults"]["rpms"][dkk])`, which
raises `KeyError` (modelled as `none`) when that field was left unset. -/
def validateDefaults (cnf : YVal) : Option DefaultsCfg :=
  match yGet cnf "defaults".data with
  | none => none
  | some d => do
    let dc ← yGet d "cache".data
    let dr ← yGet d "rpms".data
    let dm ← yGet d "modules".data
    let pc : PairCfg := { source := (yGet dc "source".data).map yStr,
                          destination := (yGet dc "destination".data).map yStr }
    let pr : PairCfg := { source := (yGet dr "source".data).map yStr,
                          destination := (yGet dr "destination".data).map yStr }
    let pm : PairCfg := { source := (yGet dm "source".data).map yStr,
                          destination := (yGet dm "destination".data).map yStr }
    let mrS ← match (yGet dm "rpms".data).bind (fun r => yGet r "source".data) with
      | some v => some v
      | none => pr.source.map YVal.str
    let mrD ← match (yGet dm "rpms".data).bind (fun r => yGet r "destination".data) with
      | some v => some v
      | none => pr.destination.map YVal.str
    some { cache := pc, rpms := pr, modules := pm,
           modules_rpms := { source := mrS, destination := mrD } }

/-- The `configuration` block validation of `load_config`
(src/lib/distrobaker.py:231-472), in source order. -/
def validateMain (cnf : YVal) : Option MainConfig := do
  let src ← validateEndpoint cnf "source".data
  let dst ← validateEndpoint cnf "destination".data
  let trg ← validateTrigger cnf
  let bld ← validateBuild cnf
  let gt ← validateGit cnf
  let ctl ← validateControl cnf
  let dfl ← validateDefaults cnf
  some { source := src, destination := dst, trigger := trg, build := bld,
         git := gt, control := ctl, defaults := dfl }

/-- The selector `n["defaults"][k]` for `k ∈ {cache, rpms, modules}`. -/
def defaultsPair (d : DefaultsCfg) (k : Str) : Option PairCfg :=
  if k = "cache".data then some d.cache
  else if k = "rpms".data then some d.rpms
  else if k = "modules".data then some d.modules
  else none

/-- One `components.modules.<p>.rpms.<cp>` entry
(src/lib/distrobaker.py:524-537): the defaults.modules.rpms template is
expanded with `ref` mapped to the literal `%(ref)s` (deferred), then an
override from the document replaces it raw. -/
def buildSubEntry (n : MainConfig) (cname sname cp : Str) (cpv : YVal) :
    Option SubEntry := do
  let m := [("component".data, cp), ("name".data, cname),
            ("ref".data, "%(ref)s".data), ("stream".data, sname)]
  let s0 ← match n.defaults.modules_rpms.source with
    | .str t => (pySubst m t).map YVal.str
    | _ => none
  let d0 ← match n.defaults.modules_rpms.destination with
    | .str t => (pySubst m t).map YVal.str
    | _ => none
  let s1 := match yGet cpv "source".data with | some v => v | none => s0
  let d1 := match yGet cpv "destination".data with | some v => v | none => d0
  some { source := s1, destination := d1 }

def buildSubList (n : MainConfig) (cname sname : Str) :
    List (Str × YVal) → Option (List (Str × SubEntry))
  | [] => some []
  | (cp, cpv) :: rest => do
    let e ← buildSubEntry n cname sname cp cpv
    let es ← buildSubList n cname sname rest
    some ((cp, e) :: es)

def buildSubEntriesOf (n : MainConfig) (cname sname : Str) (sub : YVal) :
    Option (List (Str × SubEntry)) :=
  match sub with
  | .map kvs => buildSubList n cname sname kvs
  | _ => none

/-- One `components.<k>.<p>` entry (src/lib/distrobaker.py:482-537):
defaults expanded with the component name and stream, then raw overrides. -/
def buildCompEntry (n : MainConfig) (k p : Str) (pv0 : YVal) :
    Option CompEntry := do
  let pv := match pv0 with | .null => YVal.map [] | v => v
  let cname := if k = "modules".data then (split_module p).name else p
  let sname := if k = "modules".data then (split_module p).stream else ([] : Str)
  let m := [("component".data, cname), ("stream".data, sname)]
  let dk ← defaultsPair n.defaults k
  let sTpl ← dk.source
  let dTpl ← dk.destination
  let src0 ← pySubst m sTpl
  let dst0 ← pySubst m dTpl
  let csTpl ← n.defaults.cache.source
  let cdTpl ← n.defaults.cache.destination
  let cs0 ← pySubst m csTpl
  let cd0 ← pySubst m cdTpl
  let src1 := match yGet pv "source".data with | some v => yStr v | none => src0
  let dst1 := match yGet pv "destination".data with | some v => yStr v | none => dst0
  let cs1 := match (yGet pv "cache".data).bind (fun cv => yGet cv "source".data) with
    | some v => yStr v | none => cs0
  let cd1 := match (yGet pv "cache".data).bind (fun cv => yGet cv "destination".data) with
    | some v => yStr v | none => cd0
  let subs ←
    if k = "modules".data then
      match yGet pv "rpms".data with
      | some sub => buildSubEntriesOf n cname sname sub
      | none => some []
    else some []
  some { source := src1, destination := dst1, cache_source := cs1,
         cache_destination := cd1, rpms := subs }

def buildCompList (n : MainConfig) (k : Str) :
    List (Str × YVal) → Option (List (Str × CompEntry))
  | [] => some []
  | (p, pv) :: rest => do
    let e ← buildCompEntry n k p pv
    let es ← buildCompList n k rest
    some ((p, e) :: es)

/-- The `components` section of `load_config`
(src/lib/distrobaker.py:473-542). -/
def buildComps (n : MainConfig) (y : YVal) : Option CompsCfg :=
  match yGet y "components".data with
  | none => some { rpms := [], modules := [] }
  | some cm => do
    let r ← match yGet cm "rpms".data with
      | some (.map kvs) => buildCompList n "rpms".data kvs
      | some _ => none
      | none => some []
    let md ← match yGet cm "modules".data with
      | some (.map kvs) => buildCompList n "modules".data kvs
      | some _ => none
      | none => some []
    some { rpms := r, modules := md }

/-- The pure part of `load_config`: validation of a parsed
`distrobaker.yaml` document into the `(c["main"], c["comps"])` pair. -/
def load_config_validate (y : YVal) : Option (MainConfig × CompsCfg) :=
  match yGet y "configuration".data with
  | none => none
  | some cnf => do
    let n ← validateMain cnf
    let nc ← buildComps n y
    some (n, nc)

/-- The external environment of `load_config`: whether each clone attempt of
the configuration repository succeeds, and the `distrobaker.yaml` found there
(`none`: no such file; `some none`: present but unparseable; `some (some y)`:
parsed document). -/
structure ConfigRepoWorld where
  cloneOk : Nat → Bool
  yamlFile : Option (Option YVal)

/-- The global configuration `c`: `none` before any successful load,
otherwise the `(main, comps)` pair (both keys are always set together,
src/lib/distrobaker.py:558-559). -/
abbrev DBState := Option (MainConfig × CompsCfg)

/-- `load_config` (src/lib/distrobaker.py:179): clone the configuration
repository (retried `rt` times), read and validate `distrobaker.yaml`, and on
success replace the global configuration.  The state is threaded explicitly;
every failing path returns it unchanged. -/
def load_config (w : ConfigRepoWorld) (st : DBState) (crepo : Str) (rt : Nat) :
    Option (MainConfig × CompsCfg) × DBState :=
  let scm := split_scmurl crepo
  let _ref : Str := match scm.ref with | none => "master".data | some r => r
  if (List.range rt).any w.cloneOk then
    match w.yamlFile with
    | none => (none, st)
    | some none => (none, st)
    | some (some y) =>
      match load_config_validate y with
      | none => (none, st)
      | some pair => (some pair, some pair)
  else (none, st)

/-! ### Claims C2 and C3: missing `return None` in the trigger validation -/

def yS (s : String) : YVal := .str s.data

def cacheBlockDoc : YVal :=
  .map [("url".data, yS "https://cache"), ("cgi".data, yS "upload.cgi"),
        ("path".data, yS "repo")]

/-- The `configuration` block entries shared by the test documents; the
trigger block is a parameter. -/
def cfgBlockWith (trg : YVal) : YVal :=
  .map
    [ ("source".data, .map
        [("scm".data, yS "https://src"), ("cache".data, cacheBlockDoc),
         ("profile".data, yS "sprof")])
    , ("destination".data, .map
        [("scm".data, yS "https://dst"), ("cache".data, cacheBlockDoc),
         ("profile".data, yS "dprof"),
         ("mbs".data, .map [("auth_method".data, yS "kerberos"),
                            ("api_url".data, yS "https://mbs")])])
    , ("trigger".data, trg)
    , ("build".data, .map
        [("prefix".data, yS "https://build"), ("target".data, yS "tgt"),
         ("platform".data, yS "platform:el9")])
    , ("git".data, .map
        [("author".data, yS "DistroBaker"), ("email".data, yS "db@x"),
         ("message".data, yS "Sync")])
    , ("control".data, .map
        [("build".data, .bool true), ("merge".data, .bool true),
         ("strict".data, .bool false)])
    , ("defaults".data, .map
        [ ("cache".data, .map [("source".data, yS "%(component)s"),
                               ("destination".data, yS "%(component)s")])
        , ("rpms".data, .map [("source".data, yS "%(component)s.git"),
                              ("destination".data, yS "%(component)s.git")])
        , ("modules".data, .map
            [("source".data, yS "%(component)s.git#%(stream)s"),
             ("destination".data, yS "%(component)s.git#%(stream)s")])])]

/-- A document with every required key present except `trigger.rpms`. -/
def docNoTriggerRpms : YVal :=
  .map [("configuration".data, cfgBlockWith (.map [("modules".data, yS "mtag")]))]

/-- A fully well-formed document (used as the previously loaded
configuration). -/
def docFull : YVal :=
  .map [("configuration".data,
         cfgBlockWith (.map [("rpms".data, yS "rtag"), ("modules".data, yS "mtag")]))]

def oldPair : MainConfig × CompsCfg := (load_config_validate docFull).get (by decide)

def cfgWorldBad : ConfigRepoWorld :=
  { cloneOk := fun _ => true, yamlFile := some (some docNoTriggerRpms) }

/-! ### Remote effects and the oracle world -/

/-- The remote side effects the engine performs.  Purely local git operations
(checkout, branch, merge, commit) have no remote observer and carry no
effect. -/
inductive Effect where
  | clone (link : Str) (ref : Option Str)
  | fetch (link : Str) (ref : Option Str)
  | push (dryRun : Bool) (ns comp : Str) (ref : Option Str)
  | cacheExists (path file hash : Str)
  | download (path file hash : Str)
  | upload (path file hash : Str)
  | kojiBuild (scmurl : Str)
  | mbsPost (url scmurl : Str)
deriving DecidableEq

/-- An MBS HTTP response: status code, `ok` flag and the parsed build id
(`none` when the body has no `id`). -/
structure MbsResp where
  status : Nat
  ok : Bool
  buildId : Option Int
deriving DecidableEq

/-- A koji build record as consumed by `get_build_info` and
`sync_module_components`: the optional `source` field and the optional
`extra.typeinfo.module` `(name, stream, modulemd_str)` triple. -/
structure KojiBuildRec where
  source : Option Str
  moduleInfo : Option (Str × Str × Str)
deriving DecidableEq

/-- The dictionary returned by `get_build_info`. -/
structure BuildInfo where
  scmurl : Str
  name : Option Str
  stream : Option Str
  modulemd : Option Str
deriving DecidableEq

/-- A modulemd RPM component: repository, lookaside cache and ref. -/
structure RpmCompInfo where
  repository : Str
  cache : Option Str
  ref : Option Str
deriving DecidableEq

/-- A parsed module-stream v2 document, reduced to what
`sync_module_components` reads from it. -/
structure ModuleMd where
  rpmComps : List (Str × RpmCompInfo)
  moduleComps : List Str
deriving DecidableEq

/-- Outcomes of every external interaction, keyed by namespace, component,
file or NVR and (for retried operations) by attempt number.  `Option` return
types model operations whose failure is a raised exception. -/
structure World where
  cloneOk : Str → Str → Nat → Bool
  fetchOk : Str → Str → Nat → Bool
  configureOk : Str → Str → Bool
  branchTaken : Str → Str → Nat → Bool
  refExists : Str → Str → Str → Bool
  mergeOk : Str → Str → Bool
  pullOk : Str → Str → Bool
  pushOk : Str → Str → Nat → Bool
  headSha : Str → Str → Str
  destSources : Str → Str → Option (List Str)
  srcSources : Str → Str → Option (List Str)
  cacheExistsOk : Str → Str → Nat → Option Bool
  downloadOk : Str → Str → Nat → Bool
  uploadOk : Str → Str → Nat → Bool
  destSessionOk : Bool
  sourceSessionOk : Bool
  kojiBuildRes : Str → Option Int
  mbsRes : Str → Option MbsResp
  kojiGetBuild : Str → Option KojiBuildRec
  listTaggedLatest : Str → Str → Option (List Str)
  listTaggedAll : Str → Option (List Str)
  parseModulemd : Str → Option ModuleMd

/-- `c["main"]["control"]["exclude"][ns]`; `none` models the `KeyError` on a
namespace other than `rpms`/`modules`. -/
def excludeLookup (ctl : ControlCfg) (ns : Str) : Option (List Str) :=
  if ns = "rpms".data then some ctl.exclude_rpms
  else if ns = "modules".data then some ctl.exclude_modules
  else none

/-- `c["comps"][ns]`. -/
def compsLookup (comps : CompsCfg) (ns : Str) : Option (List (Str × CompEntry)) :=
  if ns = "rpms".data then some comps.rpms
  else if ns = "modules".data then some comps.modules
  else none

/-! ### `repo_push` -/

def repo_push_loop (w : World) (dry : Bool) (ns comp : Str) (ref : Option Str)
    (attempt : Nat) : Nat → Option Unit × List Effect
  | 0 => (none, [])
  | n + 1 =>
    if w.pushOk ns comp attempt then
      (some (), [Effect.push dry ns comp ref])
    else
      let r := repo_push_loop w dry ns comp ref (attempt + 1) n
      (r.1, Effect.push dry ns comp ref :: r.2)

/-- `repo_push` (src/lib/distrobaker.py:820): push the synchronized repo to
the destination, retried `rt` times; with `dry_run` every push carries the
`--dry-run` option.  Each git push invocation is one `push` effect recording
the dry-run flag. -/
def repo_push (w : World) (dry : Bool) (rt : Nat) (ns comp : Str)
    (dscm : SCMRef) : Option Unit × List Effect :=
  repo_push_loop w dry ns comp dscm.ref 0 rt

/-! ### `sync_cache` -/

/-- The per-entry retry loop of `sync_cache`
(src/lib/distrobaker.py:1337-1422): probe the destination cache; when the
file is missing, download it from the source cache and — outside dry-run —
upload it; any exception retries the whole attempt, exhaustion fails. -/
def sync_cache_entry (w : World) (dry : Bool) (ns comp : Str)
    (scname dcname : Str) (s : SourceEntry) (attempt : Nat) :
    Nat → Bool × List Effect
  | 0 => (false, [])
  | n + 1 =>
    let probe := Effect.cacheExists (ns ++ '/' :: dcname) s.1 s.2.1
    match w.cacheExistsOk comp s.1 attempt with
    | none =>
      let r := sync_cache_entry w dry ns comp scname dcname s (attempt + 1) n
      (r.1, probe :: r.2)
    | some true => (true, [probe])
    | some false =>
      let dl := Effect.download (ns ++ '/' :: scname) s.1 s.2.1
      if w.downloadOk comp s.1 attempt then
        if dry then (true, [probe, dl])
        else
          let ul := Effect.upload (ns ++ '/' :: dcname) s.1 s.2.1
          if w.uploadOk comp s.1 attempt then (true, [probe, dl, ul])
          else
            let r := sync_cache_entry w dry ns comp scname dcname s (attempt + 1) n
            (r.1, probe :: dl :: ul :: r.2)
      else
        let r := sync_cache_entry w dry ns comp scname dcname s (attempt + 1) n
        (r.1, probe :: dl :: r.2)

def sync_cache_entries (w : World) (dry : Bool) (rt : Nat) (ns comp : Str)
    (scname dcname : Str) : List SourceEntry → Bool × List Effect
  | [] => (true, [])
  | s :: rest =>
    let r := sync_cache_entry w dry ns comp scname dcname s 0 rt
    if r.1 then
      let r2 := sync_cache_entries w dry rt ns comp scname dcname rest
      (r2.1, r.2 ++ r2.2)
    else (false, r.2)

/-- `sync_cache` (src/lib/distrobaker.py:1279).  Note src lines 1332-1333:
for a component without a per-component configuration entry, BOTH `scname`
and `dcname` are expanded from the `defaults.cache.source` template — the
destination cache name `dcname` is also taken from the source template.  The
set of source tuples is modelled as a list (iteration order is irrelevant to
the claims below). -/
def sync_cache (w : World) (dry : Bool) (rt : Nat) (cfg : DBState)
    (comp : Str) (sources : List SourceEntry) (ns : Str)
    (_scacheurl : Option Str) : Option Nat × List Effect :=
  match cfg with
  | none => (none, [])
  | some (m, comps) =>
    match excludeLookup m.control ns with
    | none => (none, [])
    | some excl =>
      if comp ∈ excl then (none, [])
      else
        -- a custom source cache URL only produces a warning (src 1302-1311)
        match compsLookup comps ns with
        | none => (none, [])
        | some centries =>
          let names : Option (Str × Str) :=
            match lookupA centries comp with
            | some e => some (e.cache_source, e.cache_destination)
            | none =>
              match m.defaults.cache.source with
              | none => none
              | some tpl =>
                match pySubst [("component".data, comp)] tpl,
                      pySubst [("component".data, comp)] tpl with
                | some sn, some dn => some (sn, dn)
                | _, _ => none
          match names with
          | none => (none, [])
          | some (scname, dcname) =>
            let r := sync_cache_entries w dry rt ns comp scname dcname sources
            if r.1 then (some sources.length, r.2) else (none, r.2)

/-! ### `build_comp` -/

/-- `build_comp` (src/lib/distrobaker.py:1426): submit a flat koji build or a
modular MBS build for the destination ref; in dry-run no call of any kind is
made and the reported task/build id is 0. -/
def build_comp (w : World) (dry : Bool) (cfg : DBState) (comp ref ns : Str) :
    Option Int × List Effect :=
  match cfg with
  | none => (none, [])
  | some (m, comps) =>
    match excludeLookup m.control ns with
    | none => (none, [])
    | some excl =>
      if comp ∈ excl then (none, [])
      else if ¬ m.control.build then (none, [])
      else
        match compsLookup comps ns with
        | none => (none, [])
        | some centries =>
          let buildcomp : Option Str :=
            match lookupA centries comp with
            | some e => (split_scmurl e.destination).comp
            | none => some comp
          match buildcomp with
          | none => (none, [])
          | some bc =>
            if ns = "rpms".data then
              let url := m.build.pfx ++ '/' :: (ns ++ '/' :: (bc ++ '#' :: ref))
              if dry then (some 0, [])
              else if w.destSessionOk then
                match w.kojiBuildRes url with
                | some task => (some task, [Effect.kojiBuild url])
                | none => (none, [Effect.kojiBuild url])
              else (none, [])
            else if ns = "modules".data then
              let ms := split_module bc
              let url := m.build.pfx ++ '/' :: (ns ++ '/' :: (ms.name ++ '#' :: ref))
              match m.destination.mbs with
              | none => (none, [])
              | some mbs =>
                match lookupA mbs "api_url".data, lookupA mbs "auth_method".data with
                | some apiv, some amv =>
                  let rurl := yStr apiv ++ "/module-builds/".data
                  if dry then (some 0, [])
                  else if yStr amv = "kerberos".data ∨ yStr amv = "oidc".data then
                    match w.mbsRes rurl with
                    | none => (none, [Effect.mbsPost rurl url])
                    | some resp =>
                      if resp.status = 401 then (none, [Effect.mbsPost rurl url])
                      else if ¬ resp.ok then (none, [Effect.mbsPost rurl url])
                      else
                        match resp.buildId with
                        | some bid => (some bid, [Effect.mbsPost rurl url])
                        | none => (none, [Effect.mbsPost rurl url])
                  else (none, [])
                | _, _ => (none, [])
            else (none, [])

/-! ### Build queries -/

/-- `get_build_info` (src/lib/distrobaker.py:1838). -/
def get_build_info (w : World) (cfg : DBState) (nvr : Str) : Option BuildInfo :=
  match cfg with
  | none => none
  | some _ =>
    if w.sourceSessionOk then
      match w.kojiGetBuild nvr with
      | none => none
      | some b =>
        match b.source with
        | none => none
        | some src =>
          match b.moduleInfo with
          | some (n, s, mmd) =>
            some { scmurl := src, name := some n, stream := some s,
                   modulemd := some mmd }
          | none =>
            some { scmurl := src, name := none, stream := none, modulemd := none }
    else none

/-- `get_build` (src/lib/distrobaker.py:1889): the most recently tagged build
NVR for a component in its trigger tag. -/
def get_build (w : World) (cfg : DBState) (comp : Str) (ns : Str) : Option Str :=
  match cfg with
  | none => none
  | some (m, _) =>
    if w.sourceSessionOk then
      if ns = "rpms".data then
        match m.trigger.rpms with
        | none => none
        | some tag =>
          match w.listTaggedLatest tag comp with
          | none => none
          | some nvrs =>
            match nvrs with
            | n :: _ => some n
            | [] => none
      else if ns = "modules".data then
        let msc := split_module comp
        match m.trigger.modules with
        | none => none
        | some tag =>
          match w.listTaggedAll tag with
          | none => none
          | some builds =>
            if builds.isEmpty then none
            else
              builds.foldl (fun acc b =>
                match get_build_info w cfg b with
                | none => acc
                | some bi =>
                  match bi.name, bi.stream with
                  | some n, some s =>
                    if msc.name = n ∧ msc.stream = s then some b else acc
                  | _, _ => acc) none
      else none
    else none

/-! ### The VCS mirror steps -/

def clone_loop (w : World) (ns comp : Str) (dscm : SCMRef) (attempt : Nat) :
    Nat → Option Unit × List Effect
  | 0 => (none, [])
  | n + 1 =>
    if w.cloneOk ns comp attempt then
      (some (), [Effect.clone dscm.link dscm.ref])
    else
      let r := clone_loop w ns comp dscm (attempt + 1) n
      (r.1, Effect.clone dscm.link dscm.ref :: r.2)

/-- `clone_destination_repo` (src/lib/distrobaker.py:563): clone the
destination repository at its branch, retried `rt` times. -/
def clone_destination_repo (w : World) (rt : Nat) (ns comp : Str)
    (dscm : SCMRef) : Option Unit × List Effect :=
  clone_loop w ns comp dscm 0 rt

def fetch_loop (w : World) (ns comp : Str) (link : Str) (ref : Option Str)
    (attempt : Nat) : Nat → Option Unit × List Effect
  | 0 => (none, [])
  | n + 1 =>
    if w.fetchOk ns comp attempt then (some (), [Effect.fetch link ref])
    else
      let r := fetch_loop w ns comp link ref (attempt + 1) n
      (r.1, Effect.fetch link ref :: r.2)

/-- `fetch_upstream_repo` (src/lib/distrobaker.py:602): fetch the `source`
remote, retried `rt` times; a truthy ref fetches that ref plus tags,
otherwise all refs and tags. -/
def fetch_upstream_repo (w : World) (rt : Nat) (ns comp : Str)
    (sscm : SCMRef) : Option Unit × List Effect :=
  fetch_loop w ns comp sscm.link (if truthy sscm.ref then sscm.ref else none) 0 rt

/-- The ephemeral-branch search of `sync_repo_merge`
(src/lib/distrobaker.py:694-723): up to `retry` random draws; a draw whose
`rev-parse` fails (the name is unused) succeeds. -/
def merge_branch_free (w : World) (ns comp : Str) : Nat → Nat → Bool
  | _, 0 => false
  | attempt, n + 1 =>
    if w.branchTaken ns comp attempt then
      merge_branch_free w ns comp (attempt + 1) n
    else true

/-- `sync_repo_merge` (src/lib/distrobaker.py:672): the branch search, the
build-ref resolution preferring `source/<ref>` over the bare ref, and the
local checkout/merge/commit sequence.  All git work is local; no remote
effects. -/
def sync_repo_merge (w : World) (rt : Nat) (ns comp : Str) (bscm : SCMRef) :
    Option Unit :=
  if merge_branch_free w ns comp 0 rt then
    let bref0 := match bscm.ref with | some r => r | none => "None".data
    match (["source/".data ++ bref0, bref0]).find? (fun c => w.refExists ns comp c) with
    | none => none
    | some _ => if w.mergeOk ns comp then some () else none
  else none

/-- `sync_repo_pull` (src/lib/distrobaker.py:792): `pull --ff-only --tags
source <ref>`; fails when the pull is not a fast-forward. -/
def sync_repo_pull (w : World) (ns comp : Str) : Option Unit :=
  if w.pullOk ns comp then some () else none

/-! ### `sync_repo` and `sync_module_components`

`sync_repo` on the `modules` namespace calls `sync_module_components`, which
calls back into `sync_repo` with `ns = "rpms"` (a call that can never reach
the module-expansion step again).  The recursion is tied by parameterizing
`sync_repo_with` over the expansion step. -/

abbrev ModuleSyncFn := Str → Option Str → Option Str → Bool × List Effect

/-- `sync_repo` (src/lib/distrobaker.py:1017), parameterized by the
module-component expansion step. -/
def sync_repo_with (msync : ModuleSyncFn) (w : World) (dry : Bool) (rt : Nat)
    (cfg : DBState) (comp ns : Str) (nvr0 : Option Str) (gitdirProvided : Bool)
    (cmodule : Option Str) (scmurl : Option Str) (bcache : Option Str) :
    Option Str × List Effect :=
  match cfg with
  | none => (none, [])
  | some (m, comps) =>
    match excludeLookup m.control ns with
    | none => (none, [])
    | some excl =>
      if comp ∈ excl then (none, [])
      else
        -- resolve the build coordinate (src 1060-1082)
        let step2 : Option (Str × Option Str × Option Str) :=
          if truthy scmurl then
            some (scmurl.getD [], none, nvr0)
          else
            match (if truthy nvr0 then nvr0 else get_build w cfg comp ns) with
            | none => none
            | some v =>
              match get_build_info w cfg v with
              | none => none
              | some bi => some (bi.scmurl, bi.modulemd, some v)
        match step2 with
        | none => (none, [])
        | some (bscmurl, bmmd, nvr1) =>
          let bscm0 := split_scmurl bscmurl
          let bref : Str :=
            match bscm0.ref with
            | some r => if r.isEmpty then "master".data else r
            | none => "master".data
          let bscm : SCMRef := { bscm0 with ref := some bref }
          -- a custom scmurl that differs from source.scm only warns (src 1087-1097)
          let nvr2 := if truthy cmodule ∧ nvr1 = none
                      then some (comp ++ ':' :: bref) else nvr1
          let cns : ModuleCoord :=
            if ns = "modules".data then split_module comp else ⟨comp, []⟩
          -- compute csrc/cdst (src 1116-1169)
          let resolved : Option (Str × Str) :=
            if truthy cmodule then
              if ns = "modules".data then none   -- unsupported (src 1117-1124)
              else
                let cmod := cmodule.getD []
                let tpls : YVal × YVal :=
                  match lookupA comps.modules cmod with
                  | some entry =>
                    match lookupA entry.rpms comp with
                    | some sub => (sub.source, sub.destination)
                    | none => (m.defaults.modules_rpms.source,
                               m.defaults.modules_rpms.destination)
                  | none => (m.defaults.modules_rpms.source,
                             m.defaults.modules_rpms.destination)
                match tpls with
                | (.str st, .str dt) =>
                  let st1 := if '#' ∈ st then st else st ++ "#%(ref)s".data
                  let dt1 := if '#' ∈ dt then dt else dt ++ "#%(ref)s".data
                  let cms := split_module cmod
                  let sm := [("component".data, cns.name), ("name".data, cms.name),
                             ("ref".data, bref), ("stream".data, cms.stream)]
                  match pySubst sm st1, pySubst sm dt1 with
                  | some s1, some d1 => some (s1, d1)
                  | _, _ => none
                | _ => none   -- string operations on a non-string template raise
            else
              match compsLookup comps ns with
              | none => none
              | some centries =>
                match lookupA centries comp with
                | some e => some (e.source, e.destination)
                | none =>
                  match defaultsPair m.defaults ns with
                  | none => none
                  | some dp =>
                    match dp.source, dp.destination with
                    | some stpl, some dtpl =>
                      let sm := [("component".data, cns.name),
                                 ("stream".data, cns.stream)]
                      match pySubst sm stpl, pySubst sm dtpl with
                      | some s1, some d1 => some (s1, d1)
                      | _, _ => none
                    | _, _ => none   -- KeyError: field left unset by load_config
          match resolved with
          | none => (none, [])
          | some (csrc, cdst) =>
            let sscm := split_scmurl (m.source.scm ++ '/' :: (ns ++ '/' :: csrc))
            let dscm0 := split_scmurl (m.destination.scm ++ '/' :: (ns ++ '/' :: cdst))
            let dref : Str :=
              match dscm0.ref with
              | some r => if r.isEmpty then "master".data else r
              | none => "master".data
            let dscm : SCMRef := { dscm0 with ref := some dref }
            let pushrepo := !gitdirProvided
            let rc := clone_destination_repo w rt ns comp dscm
            match rc.1 with
            | none => (none, rc.2)
            | some _ =>
              let rf := fetch_upstream_repo w rt ns comp sscm
              match rf.1 with
              | none => (none, rc.2 ++ rf.2)
              | some _ =>
                if ¬ w.configureOk ns comp then (none, rc.2 ++ rf.2)
                else
                  match parse_sources comp ns (w.destSources ns comp) with
                  | none => (none, rc.2 ++ rf.2)
                  | some dsrc =>
                    match (if m.control.merge then sync_repo_merge w rt ns comp bscm
                           else sync_repo_pull w ns comp) with
                    | none => (none, rc.2 ++ rf.2)
                    | some _ =>
                      match parse_sources comp ns (w.srcSources ns comp) with
                      | none => (none, rc.2 ++ rf.2)
                      | some ssrc =>
                        let srcdiff := ssrc.filter (fun e => decide (e ∉ dsrc))
                        let rcache : Option Nat × List Effect :=
                          if srcdiff.isEmpty then (some 0, [])
                          else sync_cache w dry rt cfg comp srcdiff ns bcache
                        match rcache.1 with
                        | none => (none, rc.2 ++ rf.2 ++ rcache.2)
                        | some _ =>
                          let rmod : Bool × List Effect :=
                            if ns = "modules".data then msync comp nvr2 bmmd
                            else (true, [])
                          if ¬ rmod.1 then
                            (none, rc.2 ++ rf.2 ++ rcache.2 ++ rmod.2)
                          else if pushrepo then
                            let rp := repo_push w dry rt ns comp dscm
                            match rp.1 with
                            | none => (none, rc.2 ++ rf.2 ++ rcache.2 ++ rmod.2 ++ rp.2)
                            | some _ =>
                              (some (dscm.link ++ '#' :: w.headSha ns comp),
                               rc.2 ++ rf.2 ++ rcache.2 ++ rmod.2 ++ rp.2)
                          else
                            (some (dscm.link ++ '#' :: dref),
                             rc.2 ++ rf.2 ++ rcache.2 ++ rmod.2)

/-- The RPM-component loop of `sync_module_components`
(src/lib/distrobaker.py:924-967): each sub-component is synchronized into a
fresh temporary directory (`gitdir` provided, so its push is deferred); the
first failure aborts the whole module.  On success it returns the destination
SCM URLs of the deferred working directories, in order.  The inner
`sync_repo` calls use `ns = "rpms"`, so the module-expansion callback is
never reached and is passed as a stub. -/
def sync_module_rpm_comps (w : World) (dry : Bool) (rt : Nat) (cfg : DBState)
    (parent : Str) :
    List (Str × RpmCompInfo) → Option (List (Str × Str)) × List Effect
  | [] => (some [], [])
  | (mc, info) :: rest =>
    let cscmurl :=
      match info.ref with
      | some r => info.repository ++ '#' :: r
      | none => info.repository
    let r := sync_repo_with (fun _ _ _ => (false, [])) w dry rt cfg mc
      "rpms".data none true (some parent) (some cscmurl) info.cache
    match r.1 with
    | none => (none, r.2)
    | some url =>
      let r2 := sync_module_rpm_comps w dry rt cfg parent rest
      match r2.1 with
      | none => (none, r.2 ++ r2.2)
      | some urls => (some ((mc, url) :: urls), r.2 ++ r2.2)

/-- The deferred-push loop of `sync_module_components`
(src/lib/distrobaker.py:1000-1012): push every deferred working directory in
order, stopping with failure at the first failed push.  (The `modules`
dictionary of deferred directories is necessarily empty here: a non-empty
module-component list returned before this loop.) -/
def push_deferred (w : World) (dry : Bool) (rt : Nat) :
    List (Str × Str) → Bool × List Effect
  | [] => (true, [])
  | (mc, url) :: rest =>
    let r := repo_push w dry rt "rpms".data mc (split_scmurl url)
    match r.1 with
    | none => (false, r.2)
    | some _ =>
      let r2 := push_deferred w dry rt rest
      (r2.1, r.2 ++ r2.2)

/-- `sync_module_components` (src/lib/distrobaker.py:866): fetch or accept
the modulemd, parse it as a module-stream v2 document, synchronize every RPM
component with a deferred push, handle module components (not implemented:
the source logs "aborting" but returns success at the first one, src
991-998), and finally push all deferred repositories. -/
def sync_module_components (w : World) (dry : Bool) (rt : Nat) (cfg : DBState)
    (comp : Str) (nvr : Option Str) (modulemd : Option Str) :
    Bool × List Effect :=
  match cfg with
  | none => (false, [])
  | some _ =>
    match nvr with
    | none => (false, [])
    | some nvrv =>
      let mmdStr : Option Str :=
        match modulemd with
        | some s => some s
        | none =>
          if w.sourceSessionOk then
            match w.kojiGetBuild nvrv with
            | none => none
            | some b =>
              match b.moduleInfo with
              | some (_, _, mmd) => some mmd
              | none => none
          else none
      match mmdStr with
      | none => (false, [])
      | some ms =>
        match w.parseModulemd ms with
        | none => (false, [])
        | some mmd =>
          let r := sync_module_rpm_comps w dry rt cfg comp mmd.rpmComps
          match r.1 with
          | none => (false, r.2)
          | some urls =>
            match mmd.moduleComps with
            | _ :: _ => (true, r.2)
            | [] =>
              let rp := push_deferred w dry rt urls
              (rp.1, r.2 ++ rp.2)

/-- `sync_repo` proper: `sync_repo_with` tied with the real module-expansion
step. -/
def sync_repo (w : World) (dry : Bool) (rt : Nat) (cfg : DBState)
    (comp ns : Str) (nvr : Option Str) (gitdirProvided : Bool)
    (cmodule : Option Str) (scmurl : Option Str) (bcache : Option Str) :
    Option Str × List Effect :=
  sync_repo_with (sync_module_components w dry rt cfg) w dry rt cfg
    comp ns nvr gitdirProvided cmodule scmurl bcache

/-! ### The sweep's latest-module map -/

/-- The latest-per-`name:stream` map built by `process_components`
(src/lib/distrobaker.py:1769-1780): iterate the tagged modular builds in
tag-time order (oldest to newest), overwriting the `name:stream` entry with
each build whose module info resolves.  The dictionary is modelled as a
lookup function. -/
def sweep_latest (binfo : Str → Option BuildInfo) (builds : List Str) :
    Str → Option Str :=
  builds.foldl (fun latest nvrv =>
    match binfo nvrv with
    | none => latest
    | some bi =>
      match bi.name, bi.stream with
      | some n, some s =>
        fun k => if k = n ++ ':' :: s then some nvrv else latest k
      | _, _ => latest) (fun _ => none)

/-- The `name:stream` key a build contributes to the sweep's latest map, when
its module info resolves. -/
def sweepKey (binfo : Str → Option BuildInfo) (nvrv : Str) : Option Str :=
  match binfo nvrv with
  | none => none
  | some bi =>
    match bi.name, bi.stream with
    | some n, some s => some (n ++ ':' :: s)
    | _, _ => none

/-! ### Effect classifiers -/

def isPush : Effect → Bool
  | .push _ _ _ _ => true
  | _ => false

def isUpload : Effect → Bool
  | .upload _ _ _ => true
  | _ => false

def isBuildCall : Effect → Bool
  | .kojiBuild _ => true
  | .mbsPost _ _ => true
  | _ => false

def countPush (tr : List Effect) : Nat := (tr.filter isPush).length

/-- A world where every remote operation succeeds at the first attempt, the
working trees carry no `sources` files, and the destination cache is missing
every probed blob. -/
def okWorld : World where
  cloneOk := fun _ _ _ => true
  fetchOk := fun _ _ _ => true
  configureOk := fun _ _ => true
  branchTaken := fun _ _ _ => false
  refExists := fun _ _ _ => true
  mergeOk := fun _ _ => true
  pullOk := fun _ _ => true
  pushOk := fun _ _ _ => true
  headSha := fun _ _ => "abc123".data
  destSources := fun _ _ => none
  srcSources := fun _ _ => none
  cacheExistsOk := fun _ _ _ => some false
  downloadOk := fun _ _ _ => true
  uploadOk := fun _ _ _ => true
  destSessionOk := true
  sourceSessionOk := true
  kojiBuildRes := fun _ => some 7
  mbsRes := fun _ => some ⟨200, true, some 9⟩
  kojiGetBuild := fun _ => some ⟨some "https://src/rpms/foo#main".data, none⟩
  listTaggedLatest := fun _ _ => some ["foo-1-1".data]
  listTaggedAll := fun _ => some []
  parseModulemd := fun _ => none

/-- A configuration like `oldPair` but with component `foo` excluded from the
`rpms` namespace. -/
def mExcl : MainConfig :=
  { oldPair.1 with
    control := { oldPair.1.control with exclude_rpms := ["foo".data] } }

/-! ### Claim C5: the default destination cache name -/

/-- A configuration like `oldPair` but with distinguishable source and
destination cache templates and no per-component entries. -/
def mC5 : MainConfig :=
  { oldPair.1 with
    defaults :=
      { oldPair.1.defaults with
        cache := { source := some "src-%(component)s".data,
                   destination := some "dst-%(component)s".data } } }

def infoA : RpmCompInfo :=
  { repository := "https://src/rpms/a".data, cache := none,
    ref := some "main".data }

def mmdOk6 : ModuleMd := { rpmComps := [("a".data, infoA)], moduleComps := [] }

def mmdBad6 : ModuleMd :=
  { rpmComps := [("a".data, infoA)], moduleComps := ["m".data] }

def w6 : World :=
  { okWorld with
    parseModulemd := fun s =>
      if s = "mmd-ok".data then some mmdOk6
      else if s = "mmd-mods".data then some mmdBad6
      else none }

def urls6 : List (Str × Str) := [("a".data, "https://dst/rpms/a.git#main".data)]

def tr6 : List Effect :=
  [Effect.clone "https://dst/rpms/a.git".data (some "main".data),
   Effect.fetch "https://src/rpms/a.git".data (some "main".data)]

/-! ### Lemmas about `splitFirst` and `split_scmurl` -/

theorem splitFirst_eq_none (c : Char) (s : Str) (h : c ∉ s) :
    splitFirst c s = none := by
  induction s with
  | nil => rfl
  | cons x xs ih =>
    simp only [List.mem_cons, not_or] at h
    simp [splitFirst, Ne.symm h.1, ih h.2]

theorem splitFirst_append (c : Char) (l r : Str) (h : c ∉ l) :
    splitFirst c (l ++ c :: r) = some (l, r) := by
  induction l with
  | nil => simp [splitFirst]
  | cons x xs ih =>
    simp only [List.mem_cons, not_or] at h
    simp [splitFirst, Ne.symm h.1, ih h.2]

theorem splitFirst_eq_some (c : Char) (s a b : Str)
    (h : splitFirst c s = some (a, b)) : s = a ++ c :: b := by
  induction s generalizing a with
  | nil => simp [splitFirst] at h
  | cons x xs ih =>
    by_cases hx : x = c
    · subst hx
      simp [splitFirst] at h
      simp [h.1.symm, h.2.symm]
    · simp only [splitFirst, if_neg hx] at h
      cases hs : splitFirst c xs with
      | none => simp [hs] at h
      | some p =>
        obtain ⟨a', b'⟩ := p
        simp [hs] at h
        obtain ⟨ha, hb⟩ := h
        subst hb
        rw [← ha, List.cons_append, ih a' hs]

/-! ### Lemmas about the `sources`-file parser -/

theorem matchMd5_hash (s : Str) (m : SreMatch) (hm : matchMd5 s = some m) :
    m.hash.length = 32 ∧ m.hash.all isHexLower = true := by
  unfold matchMd5 at hm
  split_ifs at hm with h
  split at hm
  · cases hm
    exact ⟨h.1, h.2⟩
  · cases hm

theorem matchSha512_hash (s : Str) (m : SreMatch) (hm : matchSha512 s = some m) :
    m.hash.length = 128 ∧ m.hash.all isHexLower = true := by
  unfold matchSha512 at hm
  split_ifs at hm with h1 h2
  cases hm
  refine ⟨?_, h2.2.2⟩
  simp only [List.length_drop]
  omega

theorem sreMatch_hash (s : Str) (m : SreMatch) (hm : sreMatch s = some m) :
    (m.hash.length = 32 ∨ m.hash.length = 128) ∧ m.hash.all isHexLower = true := by
  unfold sreMatch at hm
  cases h5 : matchMd5 s with
  | some m' =>
    rw [h5] at hm
    cases hm
    have := matchMd5_hash s m h5
    exact ⟨Or.inl this.1, this.2⟩
  | none =>
    rw [h5] at hm
    have := matchSha512_hash s m hm
    exact ⟨Or.inr this.1, this.2⟩

theorem parse_sources_lines_all (ls : List Str)
    (h : ∀ l ∈ ls, (sreMatch (rstrip l)).isSome) :
    parse_sources_lines ls
      = some (ls.filterMap fun l =>
          (sreMatch (rstrip l)).map fun m => (m.file, m.hash, hashtypeOf m.hash)) := by
  induction ls with
  | nil => rfl
  | cons l ls ih =>
    have hl := h l (by simp)
    obtain ⟨m, hm⟩ := Option.isSome_iff_exists.mp hl
    have ht := ih (fun x hx => h x (by simp [hx]))
    simp [parse_sources_lines, hm, ht]

theorem parse_sources_lines_err (ls : List Str) (l : Str) (hl : l ∈ ls)
    (hm : sreMatch (rstrip l) = none) : parse_sources_lines ls = none := by
  induction ls with
  | nil => cases hl
  | cons x xs ih =>
    rcases List.mem_cons.mp hl with h | h
    · subst h
      simp [parse_sources_lines, hm]
    · cases hsx : sreMatch (rstrip x) with
      | none => simp [parse_sources_lines, hsx]
      | some m => simp [parse_sources_lines, hsx, ih h]

/-! ### Claim C9: SCMRef parsing round-trips -/

/-- C9: for every string of the form `link#ref`, `split_scmurl` returns that
link and that ref (the link being the `#`-free part before the first `#`), so
re-serializing `<link>#<ref>` reproduces the input exactly; for every input
containing no `#` the parsed ref is absent and the bare link is the input. -/
theorem C9_split_scmurl_roundtrip :
    (∀ link ref : Str, '#' ∉ link →
      (split_scmurl (link ++ '#' :: ref)).link = link
      ∧ (split_scmurl (link ++ '#' :: ref)).ref = some ref)
    ∧ (∀ s r : Str, (split_scmurl s).ref = some r →
        (split_scmurl s).link ++ '#' :: r = s)
    ∧ (∀ s : Str, '#' ∉ s →
        (split_scmurl s).link = s ∧ (split_scmurl s).ref = none) := by
  refine ⟨?_, ?_, ?_⟩
  · intro link ref h
    simp [split_scmurl, splitFirst_append '#' link ref h]
  · intro s r h
    unfold split_scmurl at h ⊢
    cases hs : splitFirst '#' s with
    | none => simp [hs] at h
    | some p =>
      obtain ⟨a, b⟩ := p
      simp [hs] at h ⊢
      rw [← h]
      exact (splitFirst_eq_some '#' s a b hs).symm
  · intro s h
    simp [split_scmurl, splitFirst_eq_none '#' s h]

theorem C9_split_scmurl_roundtrip_witness :
    (split_scmurl ("https://src/rpms/foo".data ++ '#' :: "main".data)).link
        = "https://src/rpms/foo".data
    ∧ (split_scmurl ("https://src/rpms/foo".data ++ '#' :: "main".data)).ref
        = some "main".data :=
  C9_split_scmurl_roundtrip.1 "https://src/rpms/foo".data "main".data (by decide)

/-! ### Claim C7: specification of `parse_sources` -/

/-- C7: `parse_sources` returns the empty set when the file is missing; for a
file all of whose lines match one of the two accepted formats it returns
exactly the `(filename, hash, hashtype)` tuples of those lines, where the
hashtype is `md5` exactly when the hash is 32 hex characters and `sha512`
exactly when it is 128 hex characters; and it returns the error value
whenever some non-empty line matches neither format. -/
theorem C7_parse_sources_spec :
    (∀ comp ns, parse_sources comp ns none = some [])
    ∧ (∀ comp ns ls, (∀ l ∈ ls, (sreMatch (rstrip l)).isSome) →
        parse_sources comp ns (some ls)
          = some (ls.filterMap fun l =>
              (sreMatch (rstrip l)).map fun m => (m.file, m.hash, hashtypeOf m.hash))
        ∧ (∀ f h t es, parse_sources comp ns (some ls) = some es →
            ((f, h, t) ∈ es ↔
              (∃ l ∈ ls, sreMatch (rstrip l) = some ⟨f, h⟩) ∧ t = hashtypeOf h))
        ∧ (∀ f h t es, parse_sources comp ns (some ls) = some es → (f, h, t) ∈ es →
            (t = "md5".data ↔ h.length = 32 ∧ h.all isHexLower = true)
            ∧ (t = "sha512".data ↔ h.length = 128 ∧ h.all isHexLower = true)))
    ∧ (∀ comp ns ls l, l ∈ ls → rstrip l ≠ [] → sreMatch (rstrip l) = none →
        parse_sources comp ns (some ls) = none) := by
  refine ⟨fun _ _ => rfl, ?_, ?_⟩
  · intro comp ns ls hall
    have h1 : parse_sources comp ns (some ls)
        = some (ls.filterMap fun l =>
            (sreMatch (rstrip l)).map fun m => (m.file, m.hash, hashtypeOf m.hash)) :=
      parse_sources_lines_all ls hall
    have hmem : ∀ f h t es, parse_sources comp ns (some ls) = some es →
        ((f, h, t) ∈ es ↔
          (∃ l ∈ ls, sreMatch (rstrip l) = some ⟨f, h⟩) ∧ t = hashtypeOf h) := by
      intro f h t es hes
      rw [h1] at hes
      cases hes
      simp only [List.mem_filterMap, Option.map_eq_some']
      constructor
      · rintro ⟨l, hl, m, hm, hmt⟩
        cases hmt
        exact ⟨⟨l, hl, hm⟩, rfl⟩
      · rintro ⟨⟨l, hl, hm⟩, ht⟩
        exact ⟨l, hl, ⟨f, h⟩, hm, by rw [ht]⟩
    refine ⟨h1, hmem, ?_⟩
    intro f h t es hes hin
    obtain ⟨⟨l, _, hm⟩, ht⟩ := (hmem f h t es hes).mp hin
    have hh : (h.length = 32 ∨ h.length = 128) ∧ h.all isHexLower = true :=
      sreMatch_hash (rstrip l) ⟨f, h⟩ hm
    subst ht
    unfold hashtypeOf
    rcases hh.1 with h32 | h128
    · rw [if_neg (by omega)]
      constructor
      · exact ⟨fun _ => ⟨h32, hh.2⟩, fun _ => rfl⟩
      · exact ⟨fun hmd => absurd hmd (by decide),
          fun hc => absurd (h32.symm.trans hc.1) (by decide)⟩
    · rw [if_pos h128]
      constructor
      · exact ⟨fun hmd => absurd hmd (by decide),
          fun hc => absurd (h128.symm.trans hc.1) (by decide)⟩
      · exact ⟨fun _ => ⟨h128, hh.2⟩, fun _ => rfl⟩
  · intro comp ns ls l hl _ hm
    exact parse_sources_lines_err ls l hl hm

theorem C7_parse_sources_spec_witness :
    parse_sources "foo".data "rpms".data
        (some ["0123456789abcdef0123456789abcdef  foo.tar".data])
      = some [("foo.tar".data, "0123456789abcdef0123456789abcdef".data, "md5".data)] := by
  have h := (C7_parse_sources_spec.2.1 "foo".data "rpms".data
    ["0123456789abcdef0123456789abcdef  foo.tar".data] (by decide)).1
  rw [h]
  decide

/-! ### Claim C10: a blank line makes `parse_sources` fail -/

/-- C10: a sources file containing a line that is empty after stripping
trailing whitespace makes `parse_sources` return the error value, even
between two well-formed entries. -/
theorem C10_blank_line_error :
    ∀ comp ns ls, (∃ l ∈ ls, rstrip l = []) →
      parse_sources comp ns (some ls) = none := by
  intro comp ns ls h
  obtain ⟨l, hl, hr⟩ := h
  refine parse_sources_lines_err ls l hl ?_
  rw [hr]
  decide

theorem C10_blank_line_error_witness :
    parse_sources "foo".data "rpms".data
        (some ["0123456789abcdef0123456789abcdef  a.tar".data, "   ".data,
               "fedcba9876543210fedcba9876543210  b.tar".data]) = none :=
  C10_blank_line_error "foo".data "rpms".data _ ⟨"   ".data, by decide, by decide⟩

theorem splitFirst_snd_lt (c : Char) (s a b : Str)
    (h : splitFirst c s = some (a, b)) : b.length < s.length := by
  rw [splitFirst_eq_some c s a b h]
  simp [List.length_append]
  omega

/-- C3 (code bug witness): the document lacks `trigger.rpms`, a required key,
yet `load_config` validation succeeds: the source logs
`Configuration error: trigger.rpms missing.` but is missing a `return None`
(src/lib/distrobaker.py:353) and returns a successfully loaded configuration
whose `trigger.rpms` is simply unset. -/
theorem C3_missing_trigger_key_not_fatal :
    ((yGet docNoTriggerRpms "configuration".data).bind
        (fun cnf => yGet cnf "trigger".data)).isSome = true
    ∧ ((yGet docNoTriggerRpms "configuration".data).bind
        (fun cnf => (yGet cnf "trigger".data).bind
          (fun t => yGet t "rpms".data))).isNone = true
    ∧ (load_config_validate docNoTriggerRpms).isSome = true
    ∧ (load_config_validate docNoTriggerRpms).map (fun p => p.1.trigger.rpms)
        = some none := by
  refine ⟨by decide, by decide, by decide, by decide⟩

/-- C2 (code bug witness): `load_config` is not atomic with respect to
validation failures.  On a document whose `trigger.rpms` validation rule
fails (the configuration error is logged) the function nevertheless returns
success and replaces the previously loaded global configuration. -/
theorem C2_failed_validation_replaces_config :
    ((yGet docNoTriggerRpms "configuration".data).bind
        (fun cnf => (yGet cnf "trigger".data).bind
          (fun t => yGet t "rpms".data))).isNone = true
    ∧ (load_config cfgWorldBad (some oldPair) "https://cfg#main".data 3).1.isSome
        = true
    ∧ (load_config cfgWorldBad (some oldPair) "https://cfg#main".data 3).2
        ≠ some oldPair := by
  refine ⟨by decide, by decide, ?_⟩
  intro h
  have h1 : (load_config cfgWorldBad (some oldPair) "https://cfg#main".data 3).2.map
      (fun p => p.1.trigger.rpms) = some none := by decide
  rw [h] at h1
  simp only [Option.map_some'] at h1
  have h2 : oldPair.1.trigger.rpms = some "rtag".data := by decide
  rw [h2] at h1
  simp at h1

/-! ### Claim C8: the sweep's latest map is last-write-wins -/

theorem sweep_latest_go (binfo : Str → Option BuildInfo) (builds : List Str)
    (key : Str) :
    ∀ acc : Str → Option Str,
    (builds.foldl (fun latest nvrv =>
      match binfo nvrv with
      | none => latest
      | some bi =>
        match bi.name, bi.stream with
        | some n, some s =>
          fun k => if k = n ++ ':' :: s then some nvrv else latest k
        | _, _ => latest) acc) key
      = (builds.reverse.find?
          (fun nvrv => decide (sweepKey binfo nvrv = some key))).or (acc key) := by
  induction builds with
  | nil => intro acc; simp
  | cons b bs ih =>
    intro acc
    simp only [List.foldl_cons, List.reverse_cons, List.find?_append]
    rw [ih, Option.or_assoc]
    congr 1
    simp only [List.find?_cons, List.find?_nil]
    unfold sweepKey
    cases hb : binfo b with
    | none => simp
    | some bi =>
      cases hn : bi.name with
      | none => simp [hn]
      | some n =>
        cases hs : bi.stream with
        | none => simp [hn, hs]
        | some s =>
          by_cases hk : key = n ++ ':' :: s
          · simp [hn, hs, hk]
          · have hne : ¬ (n ++ ':' :: s = key) := fun hc => hk hc.symm
            simp [hn, hs, hk, hne]

/-- C8: for every sequence of tagged modular builds in tag-time order, the
sweep's latest map sends each `name:stream` key to the NVR of the last build
for that key encountered during the iteration (the first in reverse order);
builds whose module name or stream cannot be resolved contribute no entry. -/
theorem C8_sweep_latest_last_wins (binfo : Str → Option BuildInfo)
    (builds : List Str) (key : Str) :
    sweep_latest binfo builds key
      = builds.reverse.find? (fun nvrv => decide (sweepKey binfo nvrv = some key)) := by
  unfold sweep_latest
  rw [sweep_latest_go]
  simp

/-! ### Claim C1: dry-run performs no destructive effects -/

theorem repo_push_loop_elems (w : World) (dry : Bool) (ns comp : Str)
    (ref : Option Str) :
    ∀ fuel attempt e, e ∈ (repo_push_loop w dry ns comp ref attempt fuel).2 →
      e = Effect.push dry ns comp ref := by
  intro fuel
  induction fuel with
  | zero => intro attempt e he; simp [repo_push_loop] at he
  | succ n ih =>
    intro attempt e he
    simp only [repo_push_loop] at he
    by_cases hp : w.pushOk ns comp attempt
    · simp [hp] at he
      exact he
    · simp [hp] at he
      rcases he with he | he
      · exact he
      · exact ih (attempt + 1) e he

theorem sync_cache_entry_dry_no_upload (w : World) (ns comp scname dcname : Str)
    (s : SourceEntry) :
    ∀ fuel attempt e,
      e ∈ (sync_cache_entry w true ns comp scname dcname s attempt fuel).2 →
      isUpload e = false := by
  intro fuel
  induction fuel with
  | zero => intro attempt e he; simp [sync_cache_entry] at he
  | succ n ih =>
    intro attempt e he
    simp only [sync_cache_entry] at he
    cases hce : w.cacheExistsOk comp s.1 attempt with
    | none =>
      rw [hce] at he
      simp at he
      rcases he with he | he
      · subst he; rfl
      · exact ih _ e he
    | some b =>
      cases b with
      | true =>
        rw [hce] at he
        simp at he
        subst he; rfl
      | false =>
        rw [hce] at he
        by_cases hd : w.downloadOk comp s.1 attempt
        · simp [hd] at he
          rcases he with he | he <;> (subst he; rfl)
        · simp [hd] at he
          rcases he with he | he | he
          · subst he; rfl
          · subst he; rfl
          · exact ih _ e he

theorem sync_cache_entries_dry_no_upload (w : World) (rt : Nat)
    (ns comp scname dcname : Str) :
    ∀ srcs e, e ∈ (sync_cache_entries w true rt ns comp scname dcname srcs).2 →
      isUpload e = false := by
  intro srcs
  induction srcs with
  | nil => intro e he; simp [sync_cache_entries] at he
  | cons s rest ih =>
    intro e he
    simp only [sync_cache_entries] at he
    by_cases h1 : (sync_cache_entry w true ns comp scname dcname s 0 rt).1
    · simp [h1] at he
      rcases he with he | he
      · exact sync_cache_entry_dry_no_upload w ns comp scname dcname s rt 0 e he
      · exact ih e he
    · simp [h1] at he
      exact sync_cache_entry_dry_no_upload w ns comp scname dcname s rt 0 e he

theorem sync_cache_dry_no_upload (w : World) (rt : Nat) (cfg : DBState)
    (comp : Str) (srcs : List SourceEntry) (ns : Str) (scu : Option Str) :
    ∀ e ∈ (sync_cache w true rt cfg comp srcs ns scu).2, isUpload e = false := by
  intro e he
  simp only [sync_cache] at he
  split at he
  · simp at he
  · split at he
    · simp at he
    · split at he
      · simp at he
      · split at he
        · simp at he
        · split at he
          · simp at he
          · split at he <;>
              exact sync_cache_entries_dry_no_upload w rt ns comp _ _ srcs e he

theorem build_comp_dry (w : World) (cfg : DBState) (comp ref ns : Str) :
    build_comp w true cfg comp ref ns = (none, [])
    ∨ build_comp w true cfg comp ref ns = (some 0, []) := by
  unfold build_comp
  repeat' split
  all_goals simp only []
  all_goals repeat' split
  all_goals first
    | (left; rfl)
    | (right; rfl)
    | simp_all

/-- C1: with the dry-run flag set, for every component and namespace:
`repo_push` only ever invokes `git push` with the `--dry-run` option (never a
real push), `sync_cache` never uploads to the destination cache, and
`build_comp` performs no build-system call and reports task id 0 whenever it
reports a task id at all. -/
theorem C1_dry_run_suppresses_effects :
    ∀ (w : World) (rt : Nat) (cfg : DBState) (comp ns ref : Str)
      (dscm : SCMRef) (srcs : List SourceEntry) (scu : Option Str),
    (∀ e ∈ (repo_push w true rt ns comp dscm).2,
        e = Effect.push true ns comp dscm.ref)
    ∧ (∀ e ∈ (sync_cache w true rt cfg comp srcs ns scu).2, isUpload e = false)
    ∧ (build_comp w true cfg comp ref ns).2 = []
    ∧ (∀ t, (build_comp w true cfg comp ref ns).1 = some t → t = 0) := by
  intro w rt cfg comp ns ref dscm srcs scu
  refine ⟨?_, ?_, ?_, ?_⟩
  · intro e he
    exact repo_push_loop_elems w true ns comp dscm.ref rt 0 e he
  · exact sync_cache_dry_no_upload w rt cfg comp srcs ns scu
  · rcases build_comp_dry w cfg comp ref ns with h | h <;> rw [h]
  · intro t ht
    rcases build_comp_dry w cfg comp ref ns with h | h <;> rw [h] at ht
    · cases ht
    · cases ht
      rfl

theorem C1_dry_run_suppresses_effects_witness :
    Effect.push true "rpms".data "foo".data (some "main".data)
      = Effect.push true "rpms".data "foo".data
          (split_scmurl "https://dst/rpms/foo#main".data).ref
    ∧ isUpload (Effect.download "rpms/foo".data "f".data "h".data) = false
    ∧ (build_comp okWorld true (some oldPair) "foo".data "main".data "rpms".data).2 = []
    ∧ (0 : Int) = 0 := by
  have h := C1_dry_run_suppresses_effects okWorld 3 (some oldPair) "foo".data
    "rpms".data "main".data (split_scmurl "https://dst/rpms/foo#main".data)
    [("f".data, "h".data, "md5".data)] none
  exact ⟨h.1 _ (by decide), h.2.1 _ (by decide), h.2.2.1, h.2.2.2 0 (by decide)⟩

/-! ### Claim C4: excluded components cause no remote effect -/

/-- C4: a component listed in `control.exclude[ns]` is refused by
`sync_repo`, `sync_cache` and `build_comp` before any remote effect is
performed: each returns the error value with an empty effect trace (no clone,
no cache upload, no build submission), however the call was triggered. -/
theorem C4_excluded_component_untouched :
    ∀ (w : World) (dry : Bool) (rt : Nat) (m : MainConfig) (comps : CompsCfg)
      (excl : List Str) (comp ns ref : Str) (nvr : Option Str) (gp : Bool)
      (cm su bc : Option Str) (srcs : List SourceEntry) (scu : Option Str),
    excludeLookup m.control ns = some excl → comp ∈ excl →
    sync_repo w dry rt (some (m, comps)) comp ns nvr gp cm su bc = (none, [])
    ∧ sync_cache w dry rt (some (m, comps)) comp srcs ns scu = (none, [])
    ∧ build_comp w dry (some (m, comps)) comp ref ns = (none, []) := by
  intro w dry rt m comps excl comp ns ref nvr gp cm su bc srcs scu hx hm
  refine ⟨?_, ?_, ?_⟩
  · unfold sync_repo sync_repo_with
    simp [hx, hm]
  · unfold sync_cache
    simp [hx, hm]
  · unfold build_comp
    simp [hx, hm]

theorem C4_excluded_component_untouched_witness :
    sync_repo okWorld false 3 (some (mExcl, ⟨[], []⟩)) "foo".data "rpms".data
        none false none none none = (none, [])
    ∧ sync_cache okWorld false 3 (some (mExcl, ⟨[], []⟩)) "foo".data []
        "rpms".data none = (none, [])
    ∧ build_comp okWorld false (some (mExcl, ⟨[], []⟩)) "foo".data "main".data
        "rpms".data = (none, []) :=
  C4_excluded_component_untouched okWorld false 3 mExcl ⟨[], []⟩ ["foo".data]
    "foo".data "rpms".data "main".data none false none none none [] none
    (by decide) (by decide)

/-- C5 (code bug witness): for a component with no per-component
configuration entry, `sync_cache` expands BOTH cache names from the
`defaults.cache.source` template — src/lib/distrobaker.py:1333 assigns
`dcname` from `["cache"]["source"]` — so the existence probe and the upload
address `rpms/src-foo` rather than the destination-template name
`rpms/dst-foo` the claim requires. -/
theorem C5_default_dcname_uses_source_template :
    sync_cache okWorld false 1 (some (mC5, ⟨[], []⟩)) "foo".data
        [("f.tar".data, "aa".data, "md5".data)] "rpms".data none
      = (some 1,
         [Effect.cacheExists "rpms/src-foo".data "f.tar".data "aa".data,
          Effect.download "rpms/src-foo".data "f.tar".data "aa".data,
          Effect.upload "rpms/src-foo".data "f.tar".data "aa".data])
    ∧ Effect.upload "rpms/dst-foo".data "f.tar".data "aa".data
        ∉ (sync_cache okWorld false 1 (some (mC5, ⟨[], []⟩)) "foo".data
            [("f.tar".data, "aa".data, "md5".data)] "rpms".data none).2 := by
  refine ⟨by decide, by decide⟩

/-! ### Claim C6: the module expander's deferred pushes -/

theorem clone_loop_no_push (w : World) (ns comp : Str) (dscm : SCMRef) :
    ∀ fuel attempt e, e ∈ (clone_loop w ns comp dscm attempt fuel).2 →
      isPush e = false := by
  intro fuel
  induction fuel with
  | zero => intro attempt e he; simp [clone_loop] at he
  | succ n ih =>
    intro attempt e he
    simp only [clone_loop] at he
    by_cases hc : w.cloneOk ns comp attempt
    · simp [hc] at he
      subst he; rfl
    · simp [hc] at he
      rcases he with he | he
      · subst he; rfl
      · exact ih _ e he

theorem fetch_loop_no_push (w : World) (ns comp link : Str) (ref : Option Str) :
    ∀ fuel attempt e, e ∈ (fetch_loop w ns comp link ref attempt fuel).2 →
      isPush e = false := by
  intro fuel
  induction fuel with
  | zero => intro attempt e he; simp [fetch_loop] at he
  | succ n ih =>
    intro attempt e he
    simp only [fetch_loop] at he
    by_cases hc : w.fetchOk ns comp attempt
    · simp [hc] at he
      subst he; rfl
    · simp [hc] at he
      rcases he with he | he
      · subst he; rfl
      · exact ih _ e he

theorem sync_cache_entry_no_push (w : World) (dry : Bool)
    (ns comp scname dcname : Str) (s : SourceEntry) :
    ∀ fuel attempt e,
      e ∈ (sync_cache_entry w dry ns comp scname dcname s attempt fuel).2 →
      isPush e = false := by
  intro fuel
  induction fuel with
  | zero => intro attempt e he; simp [sync_cache_entry] at he
  | succ n ih =>
    intro attempt e he
    simp only [sync_cache_entry] at he
    cases hce : w.cacheExistsOk comp s.1 attempt with
    | none =>
      rw [hce] at he
      simp at he
      rcases he with he | he
      · subst he; rfl
      · exact ih _ e he
    | some b =>
      cases b with
      | true =>
        rw [hce] at he
        simp at he
        subst he; rfl
      | false =>
        rw [hce] at he
        by_cases hd : w.downloadOk comp s.1 attempt
        · cases dry with
          | true =>
            simp [hd] at he
            rcases he with he | he <;> (subst he; rfl)
          | false =>
            by_cases hu : w.uploadOk comp s.1 attempt
            · simp [hd, hu] at he
              rcases he with he | he | he <;> (subst he; rfl)
            · simp [hd, hu] at he
              rcases he with he | he | he | he
              · subst he; rfl
              · subst he; rfl
              · subst he; rfl
              · exact ih _ e he
        · simp [hd] at he
          rcases he with he | he | he
          · subst he; rfl
          · subst he; rfl
          · exact ih _ e he

theorem sync_cache_entries_no_push (w : World) (dry : Bool) (rt : Nat)
    (ns comp scname dcname : Str) :
    ∀ srcs e, e ∈ (sync_cache_entries w dry rt ns comp scname dcname srcs).2 →
      isPush e = false := by
  intro srcs
  induction srcs with
  | nil => intro e he; simp [sync_cache_entries] at he
  | cons s rest ih =>
    intro e he
    simp only [sync_cache_entries] at he
    by_cases h1 : (sync_cache_entry w dry ns comp scname dcname s 0 rt).1
    · simp [h1] at he
      rcases he with he | he
      · exact sync_cache_entry_no_push w dry ns comp scname dcname s rt 0 e he
      · exact ih e he
    · simp [h1] at he
      exact sync_cache_entry_no_push w dry ns comp scname dcname s rt 0 e he

theorem sync_cache_no_push (w : World) (dry : Bool) (rt : Nat) (cfg : DBState)
    (comp : Str) (srcs : List SourceEntry) (ns : Str) (scu : Option Str) :
    ∀ e ∈ (sync_cache w dry rt cfg comp srcs ns scu).2, isPush e = false := by
  intro e he
  simp only [sync_cache] at he
  split at he
  · simp at he
  · split at he
    · simp at he
    · split at he
      · simp at he
      · split at he
        · simp at he
        · split at he
          · simp at he
          · split at he <;>
              exact sync_cache_entries_no_push w dry rt ns comp _ _ srcs e he

theorem sync_repo_with_rpms_deferred_no_push (msync : ModuleSyncFn) (w : World)
    (dry : Bool) (rt : Nat) (cfg : DBState) (comp : Str) (nvr : Option Str)
    (cm su bc : Option Str) :
    ∀ e ∈ (sync_repo_with msync w dry rt cfg comp "rpms".data nvr true cm su bc).2,
      isPush e = false := by
  intro e he
  simp only [sync_repo_with] at he
  repeat' split at he
  all_goals try simp at he
  all_goals
    repeat
      first
        | (rcases he with he | he)
        | (rcases List.mem_append.mp he with he | he)
        | exact clone_loop_no_push _ _ _ _ rt 0 e he
        | exact fetch_loop_no_push _ _ _ _ _ rt 0 e he
        | exact sync_cache_no_push _ _ _ _ _ _ _ _ e he
        | exact absurd (by assumption : ("rpms".data : Str) = "modules".data)
            (by decide)
        | exact absurd (by assumption : (!true) = true) (by decide)
        | simp at he

theorem sync_module_rpm_comps_no_push (w : World) (dry : Bool) (rt : Nat)
    (cfg : DBState) (parent : Str) :
    ∀ cl e, e ∈ (sync_module_rpm_comps w dry rt cfg parent cl).2 →
      isPush e = false := by
  intro cl
  induction cl with
  | nil => intro e he; simp [sync_module_rpm_comps] at he
  | cons ci rest ih =>
    obtain ⟨mc, info⟩ := ci
    intro e he
    simp only [sync_module_rpm_comps] at he
    split at he
    · exact sync_repo_with_rpms_deferred_no_push _ w dry rt cfg mc none
        (some parent) _ info.cache e he
    · split at he <;>
      · rcases List.mem_append.mp he with he | he
        · exact sync_repo_with_rpms_deferred_no_push _ w dry rt cfg mc none
            (some parent) _ info.cache e he
        · exact ih e he

theorem repo_push_some_mem (w : World) (dry : Bool) (rt : Nat) (ns comp : Str)
    (dscm : SCMRef) :
    ∀ u, (repo_push w dry rt ns comp dscm).1 = some u →
      Effect.push dry ns comp dscm.ref ∈ (repo_push w dry rt ns comp dscm).2 := by
  intro u h
  unfold repo_push at h ⊢
  cases rt with
  | zero => simp [repo_push_loop] at h
  | succ n =>
    simp only [repo_push_loop] at h ⊢
    by_cases hp : w.pushOk ns comp 0
    · simp [hp]
    · simp [hp]

theorem push_deferred_true_mem (w : World) (dry : Bool) (rt : Nat) :
    ∀ urls, (push_deferred w dry rt urls).1 = true →
      ∀ mc url, (mc, url) ∈ urls →
        Effect.push dry "rpms".data mc (split_scmurl url).ref
          ∈ (push_deferred w dry rt urls).2 := by
  intro urls
  induction urls with
  | nil =>
    intro _ mc url hm
    simp at hm
  | cons p rest ih =>
    obtain ⟨mc0, url0⟩ := p
    intro hflag mc url hm
    simp only [push_deferred] at hflag ⊢
    cases hr : (repo_push w dry rt "rpms".data mc0 (split_scmurl url0)).1 with
    | none =>
      rw [hr] at hflag
      simp at hflag
    | some u =>
      rw [hr] at hflag
      simp only at hflag ⊢
      rcases List.mem_cons.mp hm with he | he
      · rw [Prod.mk.injEq] at he
        obtain ⟨rfl, rfl⟩ := he
        exact List.mem_append_left _
          (repo_push_some_mem w dry rt "rpms".data mc (split_scmurl url) u hr)
      · exact List.mem_append_right _ (ih hflag mc url he)

theorem push_deferred_stops (w : World) (dry : Bool) (rt : Nat) (mc url : Str)
    (rest : List (Str × Str)) :
    (repo_push w dry rt "rpms".data mc (split_scmurl url)).1 = none →
    push_deferred w dry rt ((mc, url) :: rest)
      = (false, (repo_push w dry rt "rpms".data mc (split_scmurl url)).2) := by
  intro h
  simp only [push_deferred, h]

/-- C6 (amended): in the module expander, deferred repositories are pushed
only after every RPM sub-component's `sync_repo` call succeeded: if any
sub-component sync fails the function returns failure with nothing pushed;
and if all RPM sub-component syncs succeed and the module metadata lists no
module-level components, every deferred working directory is pushed, stopping
with failure at the first failed push.  (When the metadata lists module-level
components the function returns success before the push loop; see the
counterexample.) -/
theorem C6_module_expander_deferred_pushes :
    ∀ (w : World) (dry : Bool) (rt : Nat) (cfgp : MainConfig × CompsCfg)
      (comp nvrv mstr : Str) (mmd : ModuleMd),
    w.parseModulemd mstr = some mmd →
    (∀ tr, sync_module_rpm_comps w dry rt (some cfgp) comp mmd.rpmComps = (none, tr) →
      sync_module_components w dry rt (some cfgp) comp (some nvrv) (some mstr)
        = (false, tr)
      ∧ ∀ e ∈ tr, isPush e = false)
    ∧ (∀ urls tr,
        sync_module_rpm_comps w dry rt (some cfgp) comp mmd.rpmComps
          = (some urls, tr) →
        mmd.moduleComps = [] →
        sync_module_components w dry rt (some cfgp) comp (some nvrv) (some mstr)
          = ((push_deferred w dry rt urls).1, tr ++ (push_deferred w dry rt urls).2)
        ∧ ((push_deferred w dry rt urls).1 = true →
            ∀ mc url, (mc, url) ∈ urls →
              Effect.push dry "rpms".data mc (split_scmurl url).ref
                ∈ (push_deferred w dry rt urls).2)
        ∧ (∀ mc url rest,
            (repo_push w dry rt "rpms".data mc (split_scmurl url)).1 = none →
            push_deferred w dry rt ((mc, url) :: rest)
              = (false, (repo_push w dry rt "rpms".data mc (split_scmurl url)).2))) := by
  intro w dry rt cfgp comp nvrv mstr mmd hp
  constructor
  · intro tr htr
    constructor
    · simp only [sync_module_components, hp, htr]
    · intro e he
      have h2 : (sync_module_rpm_comps w dry rt (some cfgp) comp mmd.rpmComps).2 = tr := by
        rw [htr]
      rw [← h2] at he
      exact sync_module_rpm_comps_no_push w dry rt (some cfgp) comp mmd.rpmComps e he
  · intro urls tr htr hmc
    refine ⟨?_, push_deferred_true_mem w dry rt urls, ?_⟩
    · simp only [sync_module_components, hp, htr, hmc]
    · intro mc url rest h
      exact push_deferred_stops w dry rt mc url rest h

/-- C6 counterexample: a module whose metadata lists one RPM component (whose
sync succeeds, producing one deferred working directory) and one module-level
component makes `sync_module_components` return success without pushing
anything — the not-implemented module-component path returns before the
deferred-push loop ever runs, so the claim "if all RPM sub-component syncs
succeed then every one of their deferred repositories is pushed" fails. -/
theorem C6_module_expander_deferred_pushes_counterexample :
    (sync_module_rpm_comps w6 false 1 (some oldPair) "mod:1".data
        mmdBad6.rpmComps).1
      = some [("a".data, "https://dst/rpms/a.git#main".data)]
    ∧ (sync_module_components w6 false 1 (some oldPair) "mod:1".data
        (some "mod-1-1".data) (some "mmd-mods".data)).1 = true
    ∧ countPush (sync_module_components w6 false 1 (some oldPair) "mod:1".data
        (some "mod-1-1".data) (some "mmd-mods".data)).2 = 0 := by
  refine ⟨by decide, by decide, by decide⟩

theorem C6_module_expander_deferred_pushes_witness :
    sync_module_components w6 false 1 (some oldPair) "mod:1".data
        (some "mod-1-1".data) (some "mmd-ok".data)
      = ((push_deferred w6 false 1 urls6).1,
         tr6 ++ (push_deferred w6 false 1 urls6).2)
    ∧ Effect.push false "rpms".data "a".data
        (split_scmurl "https://dst/rpms/a.git#main".data).ref
        ∈ (push_deferred w6 false 1 urls6).2 := by
  have h := (C6_module_expander_deferred_pushes w6 false 1 oldPair "mod:1".data
    "mod-1-1".data "mmd-ok".data mmdOk6 (by decide)).2 urls6 tr6
    (by decide) (by decide)
  exact ⟨h.1, h.2.1 (by decide) "a".data "https://dst/rpms/a.git#main".data
    (by decide)⟩

end DistroBaker
